import Mathlib

/-!
Verification of the Project_T57 Odoo add-on (project-based manufacturing
cost estimation, material planning and work-order execution).

The development shallowly embeds the Python source:
* `models/project_definition.py` — the project lifecycle state machine
  (`_auto_update_state`, the `_move_to_*` helpers, the manual actions and
  the `_check_dates` constraint);
* `models/material_production_planning.py` — `action_material_planning`;
* `wizards/work_order_creation_wizard.py` — `action_create_orders`;
* `wizards/project_estimation_import_wizard.py` — `action_import_prices`,
  `_find_product_line`, `_execute_import`;
* `models/work_order_execution.py` — `_auto_issue_materials`.

Quantities and prices are modelled as rationals, dates as integers, ORM
recordsets as lists in search order.  Fallible platform calls (Odoo ORM
actions that may raise) are modelled by explicit outcome parameters, so
theorems quantify over every possible platform behaviour.
-/

namespace ProjectT57

/-! ## Project lifecycle state machine (`project_definition.py`) -/

/-- `project.definition.state` selection values. -/
inductive ProjState
  | draft | pricing | planning | processing | done | cancelled
  deriving DecidableEq, Repr

/-- `project.product.pricing.state` selection values. -/
inductive PricingState
  | draft | confirmed | approved | cancelled
  deriving DecidableEq, Repr

/-- `material.production.planning.state` selection values. -/
inductive PlanState
  | draft | components_loaded | material_planned | work_orders_created
  | done | cancelled
  deriving DecidableEq, Repr

/-- `work.order.execution.state` selection values. -/
inductive ExecState
  | draft | loaded | in_progress | done | cancelled
  deriving DecidableEq, Repr

/-- `mrp.production.state` values used by the state machine. -/
inductive ProdState
  | draft | confirmed | progress | to_close | done | cancel
  deriving DecidableEq, Repr

/-- The related records `_auto_update_state` searches for: pricings,
plannings and executions of the project, and the production orders whose
`origin` matches the project name. -/
structure ProjEnv where
  pricings : List PricingState
  plannings : List PlanState
  executions : List ExecState
  productions : List ProdState
  deriving Repr

/-- Result of a state-machine step: the new state, and whether an
audit-log message was posted (`message_post`). -/
structure StepResult where
  state : ProjState
  posted : Bool
  deriving DecidableEq, Repr

/-- `_move_to_pricing`: only fires from `draft`. -/
def move_to_pricing (s : ProjState) : StepResult :=
  if s = .draft then ⟨.pricing, true⟩ else ⟨s, false⟩

/-- `_move_to_planning`: only fires from `draft` or `pricing`. -/
def move_to_planning (s : ProjState) : StepResult :=
  if s = .draft ∨ s = .pricing then ⟨.planning, true⟩ else ⟨s, false⟩

/-- `_move_to_processing`: only fires from `draft`, `pricing` or `planning`. -/
def move_to_processing (s : ProjState) : StepResult :=
  if s = .draft ∨ s = .pricing ∨ s = .planning then ⟨.processing, true⟩
  else ⟨s, false⟩

/-- `_move_to_done`: fires from any state other than `done`. -/
def move_to_done (s : ProjState) : StepResult :=
  if s ≠ .done then ⟨.done, true⟩ else ⟨s, false⟩

/-- Priority 1 of `_auto_update_state`: executions exist and are all done,
plannings exist and are all done, productions exist and are all done
(the nested `if` chain falls through whenever an inner test fails, which
is equivalent to this conjunction). -/
def prio1 (env : ProjEnv) : Bool :=
  !env.executions.isEmpty && env.executions.all (· = .done)
    && !env.plannings.isEmpty && env.plannings.all (· = .done)
    && !env.productions.isEmpty && env.productions.all (· = .done)

/-- Priority 2: some execution is `loaded` or `in_progress`. -/
def prio2 (env : ProjEnv) : Bool :=
  !env.executions.isEmpty
    && env.executions.any (fun e => e = .loaded ∨ e = .in_progress)

/-- Priority 2b: some production is `confirmed`, `progress` or `to_close`. -/
def prio2b (env : ProjEnv) : Bool :=
  !env.productions.isEmpty
    && env.productions.any (fun p => p = .confirmed ∨ p = .progress ∨ p = .to_close)

/-- Priority 3: some planning is `work_orders_created` or `done`. -/
def prio3 (env : ProjEnv) : Bool :=
  !env.plannings.isEmpty
    && env.plannings.any (fun p => p = .work_orders_created ∨ p = .done)

/-- Priority 4: some planning is past `draft`. -/
def prio4 (env : ProjEnv) : Bool :=
  !env.plannings.isEmpty && env.plannings.any (· ≠ .draft)

/-- Priority 5: some pricing is `confirmed` or `approved`. -/
def prio5 (env : ProjEnv) : Bool :=
  !env.pricings.isEmpty
    && env.pricings.any (fun p => p = .confirmed ∨ p = .approved)

/-- Priority 6: some pricing is not `draft`. -/
def prio6 (env : ProjEnv) : Bool :=
  !env.pricings.isEmpty && env.pricings.any (· ≠ .draft)

/-- `_auto_update_state`, for a project with `auto_update_state` flag
`flag`, related records `env` and current state `s`.  Mirrors the
priority-ordered early-return structure of the Python method. -/
def auto_update_state (flag : Bool) (env : ProjEnv) (s : ProjState) :
    StepResult :=
  if !flag then ⟨s, false⟩
  else if s = .done ∨ s = .cancelled then ⟨s, false⟩
  else if prio1 env then move_to_done s
  else if prio2 env then move_to_processing s
  else if prio2b env then move_to_processing s
  else if prio3 env then
    if ¬(s = .planning ∨ s = .processing ∨ s = .done) then move_to_planning s
    else ⟨s, false⟩
  else if prio4 env then
    if ¬(s = .planning ∨ s = .processing ∨ s = .done) then move_to_planning s
    else ⟨s, false⟩
  else if prio5 env then
    if s = .draft then move_to_pricing s else ⟨s, false⟩
  else if prio6 env then
    if s = .draft then move_to_pricing s else ⟨s, false⟩
  else ⟨s, false⟩

/-- Manual `action_pricing`: writes state `pricing` unconditionally. -/
def action_pricing (_ : ProjState) : ProjState := .pricing

/-- Manual `action_planning`: writes state `planning` unconditionally. -/
def action_planning (_ : ProjState) : ProjState := .planning

/-- Manual `action_processing`: writes state `processing` unconditionally. -/
def action_processing (_ : ProjState) : ProjState := .processing

/-- Manual `action_done`: writes state `done` unconditionally. -/
def action_done (_ : ProjState) : ProjState := .done

/-- Manual `action_cancel`: writes state `cancelled` unconditionally. -/
def action_cancel (_ : ProjState) : ProjState := .cancelled

/-- Manual `action_draft`: writes state `draft` unconditionally. -/
def action_draft (_ : ProjState) : ProjState := .draft

/-- Position of a state in the forward lifecycle order
draft → pricing → planning → processing → done (cancelled sits outside
the chain and is never moved by the automatic machine). -/
def stateRank : ProjState → Nat
  | .draft => 0
  | .pricing => 1
  | .planning => 2
  | .processing => 3
  | .done => 4
  | .cancelled => 5

/-! ## Date constraint (`_check_dates`, `project_definition.py`) -/

/-- Project date fields relevant to `_check_dates`. -/
structure ProjectDates where
  start_date : Int
  end_date : Int
  deriving DecidableEq, Repr

/-- `_check_dates` on an (optional-valued) record: the constraint raises a
`ValidationError` exactly when both dates are set and the end date is
strictly before the start date. -/
def check_dates (start_date end_date : Option Int) : Bool :=
  match end_date, start_date with
  | some e, some s => decide (e < s)
  | _, _ => false

/-- A create/write of both dates under the `_check_dates` constraint:
the write succeeds and yields the new dates, or raises and leaves the
record as it was (both dates are `required` fields, hence present). -/
def write_dates (p : ProjectDates) (s e : Int) :
    Except String ProjectDates :=
  if check_dates (some s) (some e) then
    .error "End date cannot be before start date!"
  else
    .ok { p with start_date := s, end_date := e }

/-! ## Material requirement calculation
(`action_material_planning`, `material_production_planning.py`) -/

/-- A `product.product` as seen by the planning code: identity plus the
stock quantities read during the explosion. -/
structure Product where
  pid : Nat
  qty_available : ℚ
  outgoing_qty : ℚ
  deriving DecidableEq, Repr

/-- One `mrp.bom.line`: a material and its per-unit quantity. -/
structure BomLine where
  product : Product
  product_qty : ℚ
  deriving DecidableEq, Repr

/-- An `mrp.bom`: its identifier and its lines. -/
structure Bom where
  bid : Nat
  bom_line_ids : List BomLine
  deriving DecidableEq, Repr

/-- A `material.planning.component` line: the component product, its
planned quantity and an optional BOM link. -/
structure PlanComponent where
  component : Product
  quantity : ℚ
  bom : Option Bom
  deriving DecidableEq, Repr

/-- A `material.requirement.line` as created by `action_material_planning`. -/
structure MaterialRequirement where
  component_id : Nat
  material_id : Nat
  required_qty : ℚ
  available_qty : ℚ
  shortage_qty : ℚ
  deriving DecidableEq, Repr

/-- The loop body of `action_material_planning` for one component:
a component with a BOM contributes one line per BOM line, a component
without a BOM contributes a single line for the component itself. -/
def requirement_lines (comp : PlanComponent) : List MaterialRequirement :=
  match comp.bom with
  | some bom =>
      bom.bom_line_ids.map (fun bl =>
        let required_qty := bl.product_qty * comp.quantity
        let available_qty := bl.product.qty_available - bl.product.outgoing_qty
        { component_id := comp.component.pid
          material_id := bl.product.pid
          required_qty := required_qty
          available_qty := available_qty
          shortage_qty := max 0 (required_qty - available_qty) })
  | none =>
      let required_qty := comp.quantity
      let available_qty := comp.component.qty_available - comp.component.outgoing_qty
      [{ component_id := comp.component.pid
         material_id := comp.component.pid
         required_qty := required_qty
         available_qty := available_qty
         shortage_qty := max 0 (required_qty - available_qty) }]

/-- A `material.production.planning` record, restricted to what
`action_material_planning` touches. -/
structure Planning where
  component_line_ids : List PlanComponent
  material_requirement_ids : List MaterialRequirement
  plan_state : PlanState
  deriving DecidableEq, Repr

/-- `action_material_planning`: raises when no components are loaded,
otherwise unlinks the previous requirement lines, accumulates the new
ones component by component (the Python `for` loop appending to
`material_lines`) and writes them together with state
`material_planned`. -/
def action_material_planning (p : Planning) : Except String Planning :=
  if p.component_line_ids.isEmpty then
    .error "Please load components first!"
  else
    let material_lines :=
      p.component_line_ids.foldl (fun acc comp => acc ++ requirement_lines comp) []
    .ok { p with material_requirement_ids := material_lines
                 plan_state := .material_planned }

/-! ## Work-order creation wizard (`work_order_creation_wizard.py`) -/

/-- An `mrp.production` record as created/searched by the wizard. -/
structure MrpProduction where
  origin : String
  product_id : Nat
  product_qty : ℚ
  bom_id : Option Nat
  prod_state : ProdState
  deriving DecidableEq, Repr

/-- Character-list prefix test. -/
def listStartsWith : List Char → List Char → Bool
  | [], _ => true
  | _ :: _, [] => false
  | a :: pre1, b :: l1 => a == b && listStartsWith pre1 l1

/-- Character-list substring test: `needle` occurs in the list. -/
def listHasSub (needle : List Char) : List Char → Bool
  | [] => needle.isEmpty
  | b :: l1 => listStartsWith needle (b :: l1) || listHasSub needle l1

/-- Substring test used to model the Odoo `('origin', 'like', name)`
search operator: `name` occurs in `hay`. -/
def strContainsSub (hay needle : String) : Bool :=
  listHasSub needle.data hay.data

/-- A component line of the planning as read by the wizard. -/
structure WizComponent where
  component_id : Nat
  component_name : String
  uom_id : Nat
  quantity : ℚ
  bom_id : Option Nat
  deriving DecidableEq, Repr

/-- The planning fields the wizard reads. -/
structure WizPlanning where
  name : String
  quantity : ℚ
  component_line_ids : List WizComponent
  deriving DecidableEq, Repr

/-- `sum existing_productions.mapped('product_qty')` over the records
matching `('origin', 'like', planning.name), ('product_id', '=', cid)`:
the quantity of every production order in `db` whose origin contains the
planning name and whose product is the component. -/
def existingQtySum (db : List MrpProduction) (planningName : String)
    (cid : Nat) : ℚ :=
  ((db.filter (fun pr =>
      strContainsSub pr.origin planningName && pr.product_id = cid)).map
    (fun pr => pr.product_qty)).sum

/-- The values of the component `mrp.production` `create` call. -/
def mkCompOrder (planningName : String) (comp : WizComponent) (cq : ℚ)
    (b : Nat) : MrpProduction :=
  { origin := planningName ++ " - " ++ comp.component_name
    product_id := comp.component_id
    product_qty := cq
    bom_id := some b
    prod_state := .draft }

/-- The component-order loop of `action_create_orders`.  `db` is the set
of `mrp.production` records visible to `search` (pre-existing orders plus
the ones created earlier in this call); `created` accumulates the orders
created by this call. -/
def createComponentOrders (planningName : String) (qtyScale : ℚ) :
    List WizComponent → List MrpProduction → List MrpProduction →
    Except String (List MrpProduction)
  | [], _, created => .ok created
  | comp :: rest, db, created =>
    match comp.bom_id with
    | none => createComponentOrders planningName qtyScale rest db created
    | some b =>
      let component_qty := comp.quantity * qtyScale
      let total_existing := existingQtySum db planningName comp.component_id
      if total_existing + component_qty > comp.quantity then
        .error ("Cannot create work order for " ++ comp.component_name
          ++ "! This would exceed planned quantity!")
      else
        let comp_production := mkCompOrder planningName comp component_qty b
        createComponentOrders planningName qtyScale rest
          (db ++ [comp_production]) (created ++ [comp_production])

/-- The values of the main-product `mrp.production` `create` call:
`origin` is the planning reference, quantity the requested quantity. -/
def mainOrder (planning : WizPlanning) (product_id : Nat) (q : ℚ) :
    MrpProduction :=
  { origin := planning.name
    product_id := product_id
    product_qty := q
    bom_id := none
    prod_state := .draft }

/-- `ratio = quantity_to_produce / planning.quantity if
planning.quantity > 0 else 1`. -/
def wizardScale (planning : WizPlanning) (q : ℚ) : ℚ :=
  if planning.quantity > 0 then q / planning.quantity else 1

/-- `action_create_orders`: validates the requested quantity, creates the
main production order, then (when `create_component_orders` is set) one
order per BOM-linked component, each guarded against the cumulative
quantity already created for that component.  Returns the list of
production orders created by the call; an error aborts the whole
transaction, so nothing is created in that case. -/
def action_create_orders (existing : List MrpProduction)
    (planning : WizPlanning) (product_id : Nat)
    (quantity_to_produce max_quantity : ℚ)
    (create_component_orders : Bool) :
    Except String (List MrpProduction) :=
  if quantity_to_produce > max_quantity then
    .error "Cannot produce more than the maximum allowed!"
  else
    let main_production := mainOrder planning product_id quantity_to_produce
    if create_component_orders then
      match createComponentOrders planning.name
          (wizardScale planning quantity_to_produce)
          planning.component_line_ids (existing ++ [main_production])
          [main_production] with
      | .error e => .error e
      | .ok orders => .ok orders
    else
      .ok [main_production]

/-- The guard of the component loop, in the claim's terms: walking the
components in order, every BOM-linked component's cumulative quantity of
already-created orders (matched by origin containing the planning name)
plus its new scaled quantity stays within its planned quantity.  The
database grows by each order the loop would create. -/
def componentGuardsOk (planningName : String) (qtyScale : ℚ) :
    List WizComponent → List MrpProduction → Bool
  | [], _ => true
  | comp :: rest, db =>
    match comp.bom_id with
    | none => componentGuardsOk planningName qtyScale rest db
    | some b =>
      let cq := comp.quantity * qtyScale
      if existingQtySum db planningName comp.component_id + cq > comp.quantity
      then false
      else componentGuardsOk planningName qtyScale rest
        (db ++ [mkCompOrder planningName comp cq b])

/-- The component orders the wizard creates when every guard passes: one
per BOM-linked component, scaled by the wizard's ratio. -/
def expectedComponentOrders (planningName : String) (qtyScale : ℚ)
    (comps : List WizComponent) : List MrpProduction :=
  comps.filterMap (fun comp => comp.bom_id.map
    (fun b => mkCompOrder planningName comp (comp.quantity * qtyScale) b))

/-! ## Cost-estimation Excel import (`project_estimation_import_wizard.py`) -/

/-- A worksheet cell as handed to the wizard by openpyxl (`values_only`):
an empty cell (`None`), a string, or a number. -/
inductive XCell
  | blank
  | s (v : String)
  | n (v : ℚ)
  deriving DecidableEq, Repr

/-- Python truthiness of a cell value (`if row[0]`). -/
def XCell.truthy : XCell → Bool
  | .blank => false
  | .s v => !v.isEmpty
  | .n q => q ≠ 0

/-- `str(value)` on a cell value. -/
def XCell.toStr : XCell → String
  | .blank => "None"
  | .s v => v
  | .n q => toString q

/-- Remove leading and trailing whitespace (Python `str.strip()`). -/
def trimChars (cs : List Char) : List Char :=
  ((cs.dropWhile Char.isWhitespace).reverse.dropWhile Char.isWhitespace).reverse

/-- Python `str.strip()` on a string. -/
def pyStrip (s : String) : String := ⟨trimChars s.data⟩

/-- Python `str.lower()`. -/
def pyLower (s : String) : String := ⟨s.data.map Char.toLower⟩

/-- Python `str.upper()`. -/
def pyUpper (s : String) : String := ⟨s.data.map Char.toUpper⟩

/-- Split a character list on a separator character. -/
def splitOnChar (sep : Char) : List Char → List (List Char)
  | [] => [[]]
  | c :: rest =>
    let r := splitOnChar sep rest
    if c == sep then [] :: r
    else
      match r with
      | [] => [[c]]
      | h :: t => (c :: h) :: t

/-- Fold a digit string to a number; `none` on a non-digit. -/
def digitsVal (cs : List Char) : Option Nat :=
  cs.foldl (fun acc c =>
    match acc with
    | none => none
    | some a => if c.isDigit then some (a * 10 + (c.toNat - 48)) else none)
    (some 0)

/-- `float(string)`: optional sign, decimal digits, optional fractional
part; `none` models a raised `ValueError`. -/
def parseNum (str0 : String) : Option ℚ :=
  let t := trimChars str0.data
  let sign : ℚ := if t.head? = some '-' then -1 else 1
  let body := if t.head? = some '-' ∨ t.head? = some '+' then t.tail else t
  if body.isEmpty then none
  else
    match splitOnChar '.' body with
    | [ip] =>
        if ip.isEmpty then none
        else (digitsVal ip).map (fun v => sign * v)
    | [ip, fp] =>
        if ip.isEmpty && fp.isEmpty then none
        else
          match digitsVal ip, digitsVal fp with
          | some i, some f =>
              some (sign * ((i : ℚ) + (f : ℚ) / ((10 : ℚ) ^ fp.length)))
          | _, _ => none
    | _ => none

/-- `float(value)` on a cell value that `is not None`. -/
def XCell.toFloat : XCell → Option ℚ
  | .blank => none
  | .s v => parseNum v
  | .n q => some q

/-- Cell access `row[i]`, with `None` beyond the row's extent. -/
def rowGet (r : List XCell) (i : Nat) : XCell := r.getD i .blank

/-- A `project.product.line` with the fields the import wizard reads and
writes. -/
structure ProductLineRec where
  product_id : Nat
  default_code : Option String
  product_name : String
  quantity : ℚ
  weight : ℚ
  sequence : Nat
  cost_price : ℚ
  sale_price : ℚ
  deriving DecidableEq, Repr

/-- Strategy-1 filter: `l.product_id.default_code and
l.product_id.default_code.strip() == product_code`. -/
def codeFilter (code : String) (l : ProductLineRec) : Bool :=
  match l.default_code with
  | some c => !c.isEmpty && pyStrip c == code
  | none => false

/-- Strategy-2 filter: `l.product_id.name and
l.product_id.name.strip() == product_name`. -/
def nameFilter (nm : String) (l : ProductLineRec) : Bool :=
  !l.product_name.isEmpty && pyStrip l.product_name == nm

/-- Strategy-3 filter: `l.product_id.name and
l.product_id.name.strip().lower() == product_name.lower()`. -/
def nameFilterCI (nm : String) (l : ProductLineRec) : Bool :=
  !l.product_name.isEmpty && pyLower (pyStrip l.product_name) == pyLower nm

/-- `_find_product_line`: tries exact code, exact name, case-insensitive
name; each strategy takes the first line its filter matches.  Returns the
index of the matched project product line. -/
def find_product_line (lines : List ProductLineRec) (code nm : String) :
    Option Nat :=
  if code.isEmpty && nm.isEmpty then none
  else
    let s1 := if !code.isEmpty then
        lines.enum.filter (fun p => codeFilter code p.2) else []
    match s1.head? with
    | some p => some p.1
    | none =>
      let s2 := if !nm.isEmpty then
          lines.enum.filter (fun p => nameFilter nm p.2) else []
      match s2.head? with
      | some p => some p.1
      | none =>
        let s3 := if !nm.isEmpty then
            lines.enum.filter (fun p => nameFilterCI nm p.2) else []
        match s3.head? with
        | some p => some p.1
        | none => none

/-- Cost price read: column P (index 15), only when the row is long
enough, the cell `is not None` and `float()` succeeds. -/
def costParse (r : List XCell) : Option ℚ :=
  if decide (r.length > 15) && rowGet r 15 ≠ XCell.blank then
    (rowGet r 15).toFloat
  else none

/-- Sale price read: column Q (index 16), same guards. -/
def saleParse (r : List XCell) : Option ℚ :=
  if decide (r.length > 16) && rowGet r 16 ≠ XCell.blank then
    (rowGet r 16).toFloat
  else none

/-- `product_line.write(update_vals)`: only the keys present in
`update_vals` (parsed cost and/or sale price) are written. -/
def applyUpdate (l : ProductLineRec) (c? s? : Option ℚ) : ProductLineRec :=
  { l with cost_price := c?.getD l.cost_price
           sale_price := s?.getD l.sale_price }

/-- Replace the element at an index by applying a function to it. -/
def modifyIdx {α : Type} : List α → Nat → (α → α) → List α
  | [], _, _ => []
  | a :: as, 0, f => f a :: as
  | a :: as, i+1, f => a :: modifyIdx as i f

/-- Outcome of `_execute_import`: the product lines after the row loop,
the update count, the error lines (row index, code, name of the row that
matched no product line), and the skipped-row count. -/
structure ImportResult where
  lines : List ProductLineRec
  updated_count : Nat
  errors : List (Nat × String × String)
  skipped_count : Nat
  deriving DecidableEq, Repr

/-- `product_code`: `str(row[0]).strip()` (column A; the loop only
reaches it when the first cell is truthy). -/
def rowCode (r : List XCell) : String := pyStrip (rowGet r 0).toStr

/-- `product_name`: `str(row[1]).strip() if row[1] else ''` (column B). -/
def rowName (r : List XCell) : String :=
  if (rowGet r 1).truthy then pyStrip (rowGet r 1).toStr else ""

/-- The row loop of `_execute_import`.  Stops at a row with a falsy first
cell or a first cell whose stripped upper-cased text is `TOTAL`; skips
rows with neither code nor name; records an error for rows matching no
product line; writes parsed prices to the matched line otherwise. -/
def rowLoop : List (List XCell) → Nat → List ProductLineRec → Nat →
    List (Nat × String × String) → Nat → ImportResult
  | [], _, ls, upd, errs, skip => ⟨ls, upd, errs, skip⟩
  | r :: rest, idx, ls, upd, errs, skip =>
    if r.isEmpty || !(rowGet r 0).truthy then ⟨ls, upd, errs, skip⟩
    else if pyUpper (pyStrip (rowGet r 0).toStr) == "TOTAL" then ⟨ls, upd, errs, skip⟩
    else
      let product_code := rowCode r
      let product_name := rowName r
      let cost? := costParse r
      let sale? := saleParse r
      if product_code.isEmpty && product_name.isEmpty then
        rowLoop rest (idx+1) ls upd errs (skip+1)
      else
        match find_product_line ls product_code product_name with
        | none =>
            rowLoop rest (idx+1) ls upd
              (errs ++ [(idx, product_code, product_name)]) skip
        | some i =>
          if cost?.isNone && sale?.isNone then
            rowLoop rest (idx+1) ls upd errs skip
          else
            rowLoop rest (idx+1)
              (modifyIdx ls i (fun l => applyUpdate l cost? sale?))
              (upd+1) errs skip

/-- The loop's stop condition: falsy first cell, or stripped upper-cased
first cell equal to `TOTAL`. -/
def stopRow (r : List XCell) : Bool :=
  (r.isEmpty || !(rowGet r 0).truthy)
    || (pyUpper (pyStrip (rowGet r 0).toStr) == "TOTAL")

/-- `_execute_import` over the worksheet, starting at `data_start_row`
(1-indexed). -/
def execute_import (ws : List (List XCell)) (data_start_row : Nat)
    (ls : List ProductLineRec) : ImportResult :=
  rowLoop (ws.drop (data_start_row - 1)) data_start_row ls 0 [] 0

/-- Column-A label of a row as compared against `'Product Code'`:
`str(row[0]).strip() if row[0] else ''`. -/
def headerLabel (r : List XCell) : String :=
  if (rowGet r 0).truthy then pyStrip (rowGet r 0).toStr else ""

/-- Header scan over the first 30 rows (1-indexed), mirroring
`iter_rows(min_row=1, max_row=30)`. -/
def findHeaderAux : List (List XCell) → Nat → Nat → Option Nat
  | _, 0, _ => none
  | [], _, _ => none
  | r :: rest, fuel+1, idx =>
    if !r.isEmpty && headerLabel r == "Product Code" then some idx
    else findHeaderAux rest fuel (idx+1)

/-- Row index of the header row (`'Product Code'` in column A among the
first 30 rows), if any. -/
def findHeader (ws : List (List XCell)) : Option Nat := findHeaderAux ws 30 1

/-- `action_import_prices` (import path, `test_mode` off): locate the
header row or raise, then run `_execute_import` from the next row. -/
def action_import_prices (ws : List (List XCell))
    (ls : List ProductLineRec) : Except String ImportResult :=
  match findHeader ws with
  | none => .error "Could not find data header row!"
  | some h => .ok (execute_import ws (h + 1) ls)

/-! ## Automatic material issuing
(`_auto_issue_materials`, `work_order_execution.py`) -/

/-- `stock.move.state` values. -/
inductive MvState
  | draft | waiting | confirmed | partially_available | assigned | done | cancel
  deriving DecidableEq, Repr

/-- A `stock.move.line`.  `has_quantity_field` distinguishes the two
platform versions the code probes with `hasattr(move_line, 'quantity')`. -/
structure MoveLine where
  has_quantity_field : Bool
  quantity : ℚ
  qty_done : ℚ
  reserved_qty : ℚ
  deriving DecidableEq, Repr

/-- A pending raw-material `stock.move`, together with the outcome of
each fallible platform call the loop body can make on it (`none` models
a raised exception; otherwise the state/lines the call leaves behind). -/
structure StockMove where
  product_uom_qty : ℚ
  qty_available : ℚ
  mv_state : MvState
  move_line_ids : List MoveLine
  assign1 : Option (MvState × List MoveLine)
  assign2 : Option (List MoveLine)
  assign3 : Option (MvState × List MoveLine)
  done_raises : Bool
  deriving DecidableEq, Repr

/-- State and lines after the initial `move._action_assign()` attempt
(only made when the move is not yet `assigned`; a raise is caught and
leaves the move as it was). -/
def afterAssign1 (m : StockMove) : MvState × List MoveLine :=
  if m.mv_state ≠ .assigned then
    match m.assign1 with
    | some res => res
    | none => (m.mv_state, m.move_line_ids)
  else (m.mv_state, m.move_line_ids)

/-- First quantity-setting loop: skips lines already holding a positive
quantity, otherwise copies the reserved quantity into the done quantity
(on the `quantity`-field version the source assigns the field to
itself). -/
def setLinesSkip (lines : List MoveLine) : List MoveLine :=
  lines.map fun ml =>
    if ml.has_quantity_field then
      if ml.quantity > 0 then ml else { ml with quantity := ml.quantity }
    else
      if ml.qty_done > 0 then ml else { ml with qty_done := ml.reserved_qty }

/-- Unconditional quantity-setting loop (second and third call sites). -/
def setLinesAll (lines : List MoveLine) : List MoveLine :=
  lines.map fun ml =>
    if ml.has_quantity_field then { ml with quantity := ml.quantity }
    else { ml with qty_done := ml.reserved_qty }

/-- `total_qty`: sum of `quantity` or of `qty_done`, depending on which
field the first line has. -/
def lineTotal (lines : List MoveLine) : ℚ :=
  match lines with
  | [] => 0
  | l0 :: _ =>
    if l0.has_quantity_field then (lines.map (fun l => l.quantity)).sum
    else (lines.map (fun l => l.qty_done)).sum

/-- Loop body of `_auto_issue_materials` for one pending move: `true`
exactly when the body reaches `issued_count += 1`.  Every fallible step
sits inside a `try`/`except`, so the body itself never raises. -/
def processMove (m : StockMove) : Bool :=
  if m.mv_state = .done ∨ m.mv_state = .cancel then false
  else
    let required_qty := m.product_uom_qty
    let available_qty := m.qty_available
    let res := afterAssign1 m
    if res.1 = .assigned then
      if !res.2.isEmpty then
        let lines2 := setLinesSkip res.2
        if lineTotal lines2 > 0 then !m.done_raises else false
      else
        match m.assign2 with
        | none => false
        | some newLines =>
          let lines2 := setLinesAll newLines
          if !lines2.isEmpty then
            if lineTotal lines2 > 0 then !m.done_raises else false
          else false
    else if available_qty ≥ required_qty then
      match m.assign3 with
      | none => false
      | some res3 =>
        if res3.1 = .assigned ∧ !res3.2.isEmpty then !m.done_raises
        else false
    else false

/-- An `mrp.production` as processed by `_auto_issue_materials`:
its state, the outcome of `action_confirm` when it is a draft order
(`none` = raised), and `move_raw_ids` as read after the confirm/assign
preamble. -/
structure ProductionOrder where
  prod_state : ProdState
  confirm_result : Option ProdState
  moves : List StockMove
  deriving DecidableEq, Repr

/-- A raw move still pending: state neither `done` nor `cancel`. -/
def pendingMove (m : StockMove) : Bool :=
  !(m.mv_state = .done ∨ m.mv_state = .cancel)

/-- `_auto_issue_materials`: returns `(0, 0)` when a draft order cannot
be confirmed or when no raw move is pending; otherwise issues what it
can and returns `(issued_count, total_count)`. -/
def auto_issue_materials (p : ProductionOrder) : Nat × Nat :=
  if p.prod_state = .draft ∧ p.confirm_result = none then (0, 0)
  else
    let raw_moves := p.moves.filter pendingMove
    let total_count := raw_moves.length
    if total_count = 0 then (0, 0)
    else ((raw_moves.filter processMove).length, total_count)

/-! ## Theorems about the state machine and the date constraint -/

/-- C7: for every project whose current state is `done` or `cancelled`,
the automatic state-update machine leaves the state unchanged and posts
no audit-log message, whatever the related pricings, plannings,
executions and production orders are. -/
theorem C7_no_auto_update_when_closed (flag : Bool) (env : ProjEnv)
    (s : ProjState) (h : s = .done ∨ s = .cancelled) :
    auto_update_state flag env s = ⟨s, false⟩ := by
  rcases h with h | h <;> subst h <;> cases flag <;> simp [auto_update_state]

/-- Witness for C7 at a concrete closed project with busy related
records. -/
theorem C7_witness :
    auto_update_state true
      ⟨[.confirmed], [.work_orders_created], [.in_progress], [.progress]⟩
      .done = ⟨.done, false⟩ :=
  C7_no_auto_update_when_closed true _ .done (Or.inl rfl)

/-- C9: the `_check_dates` constraint enforces end date ≥ start date:
a create/write with end date strictly before the start date raises a
validation error (leaving the record as it was), one with end date ≥
start date passes, and every record a successful write produces
satisfies the invariant. -/
theorem C9_end_date_not_before_start (p : ProjectDates) (s e : Int) :
    (e < s → write_dates p s e = .error "End date cannot be before start date!") ∧
    (s ≤ e → write_dates p s e = .ok ⟨s, e⟩) ∧
    (∀ q, write_dates p s e = .ok q → q.start_date ≤ q.end_date) := by
  refine ⟨fun h => ?_, fun h => ?_, fun q hq => ?_⟩
  · simp [write_dates, check_dates, h]
  · simp [write_dates, check_dates, not_lt.mpr h]
  · by_cases h : e < s
    · simp [write_dates, check_dates, h] at hq
    · simp [write_dates, check_dates, h] at hq
      simp [← hq]
      omega

/-- Witness for C9: a valid write succeeds with the new dates, an
invalid one raises. -/
theorem C9_witness :
    write_dates ⟨0, 0⟩ 1 2 = .ok ⟨1, 2⟩ ∧
    write_dates ⟨0, 0⟩ 3 2 = .error "End date cannot be before start date!" :=
  ⟨(C9_end_date_not_before_start ⟨0, 0⟩ 1 2).2.1 (by norm_num),
   (C9_end_date_not_before_start ⟨0, 0⟩ 3 2).1 (by norm_num)⟩

/-- C1 counterexample: a project with `auto_update_state` enabled, state
`draft`, and no related records at all.  Every related execution,
planning and production order is (vacuously) done, yet
`_auto_update_state` does not move the project to `done` — the code also
requires at least one record of each kind. -/
theorem C1_counterexample :
    (∀ x ∈ ([] : List ExecState), x = ExecState.done) ∧
    (∀ x ∈ ([] : List PlanState), x = PlanState.done) ∧
    (∀ x ∈ ([] : List ProdState), x = ProdState.done) ∧
    (auto_update_state true ⟨[], [], [], []⟩ .draft).state ≠ ProjState.done := by
  refine ⟨by simp, by simp, by simp, by decide⟩

/-- C1 (amended): for a project with `auto_update_state` enabled whose
state is neither `done` nor `cancelled`, if there is at least one
related execution and all are done, at least one related planning and
all are done, and at least one matching production order and all are
done, then `_auto_update_state` moves the project to `done` (posting the
audit message). -/
theorem C1_all_activities_done_moves_to_done (env : ProjEnv) (s : ProjState)
    (hs : ¬(s = .done ∨ s = .cancelled))
    (hexe : env.executions ≠ [] ∧ ∀ x ∈ env.executions, x = ExecState.done)
    (hplan : env.plannings ≠ [] ∧ ∀ x ∈ env.plannings, x = PlanState.done)
    (hprod : env.productions ≠ [] ∧ ∀ x ∈ env.productions, x = ProdState.done) :
    auto_update_state true env s = ⟨.done, true⟩ := by
  have h1 : prio1 env = true := by
    simp only [prio1, Bool.and_eq_true, Bool.not_eq_true', List.all_eq_true,
      decide_eq_true_eq]
    refine ⟨⟨⟨⟨⟨?_, hexe.2⟩, ?_⟩, hplan.2⟩, ?_⟩, hprod.2⟩
    · cases hx : env.executions with
      | nil => exact absurd hx hexe.1
      | cons a l => simp [List.isEmpty]
    · cases hx : env.plannings with
      | nil => exact absurd hx hplan.1
      | cons a l => simp [List.isEmpty]
    · cases hx : env.productions with
      | nil => exact absurd hx hprod.1
      | cons a l => simp [List.isEmpty]
  have hsd : s ≠ .done := fun h => hs (Or.inl h)
  have hsc : s ≠ .cancelled := fun h => hs (Or.inr h)
  simp [auto_update_state, hs, h1, move_to_done, hsd, hsc]

/-- Witness for C1 (amended) at a concrete project. -/
theorem C1_witness :
    auto_update_state true ⟨[], [.done], [.done], [.done]⟩ .processing
      = ⟨.done, true⟩ :=
  C1_all_activities_done_moves_to_done ⟨[], [.done], [.done], [.done]⟩
    .processing (by decide) ⟨by decide, by decide⟩ ⟨by decide, by decide⟩
    ⟨by decide, by decide⟩

/-- C6 counterexample: the manual `action_pricing` — an operation other
than `action_draft` and `action_cancel` — applied to a project in
`processing` moves it back to `pricing`, strictly backwards in the
lifecycle order. -/
theorem C6_counterexample :
    action_pricing ProjState.processing = ProjState.pricing ∧
    stateRank (action_pricing ProjState.processing) <
      stateRank ProjState.processing := by
  decide

/-- C6 (amended): the automatic state machine is monotonic along
draft → pricing → planning → processing → done — `_auto_update_state`
never lowers a project's rank — while every manual action
(`action_pricing`, `action_planning`, `action_processing` as well as
`action_draft` and `action_cancel`) forces the state directly and can
move it backwards. -/
theorem C6_auto_update_monotonic (flag : Bool) (env : ProjEnv)
    (s : ProjState) :
    stateRank s ≤ stateRank (auto_update_state flag env s).state := by
  unfold auto_update_state
  generalize prio1 env = b1
  generalize prio2 env = b2
  generalize prio2b env = b3
  generalize prio3 env = b4
  generalize prio4 env = b5
  generalize prio5 env = b6
  generalize prio6 env = b7
  revert flag b1 b2 b3 b4 b5 b6 b7
  unfold move_to_done move_to_processing move_to_planning move_to_pricing
  cases s <;> decide

/-! ## Theorems about the material requirement calculation -/

/-- The accumulating loop of `action_material_planning` is the
concatenation of the per-component requirement lines. -/
theorem foldl_append_requirements (xs : List PlanComponent)
    (acc : List MaterialRequirement) :
    xs.foldl (fun a c => a ++ requirement_lines c) acc
      = acc ++ (xs.map requirement_lines).flatten := by
  induction xs generalizing acc with
  | nil => simp
  | cons x xs ih => simp [ih, List.append_assoc]

/-- C2: with components loaded, `action_material_planning` replaces the
previously computed requirement lines (the result does not depend on
them) with, for every component that has a BOM, one line per BOM line —
required = BOM-line quantity × planned quantity, available = on-hand
minus outgoing stock of the BOM-line material, shortage =
max 0 (required − available) — and for every component without a BOM a
single line with the component itself as material and required quantity
its planned quantity; the explosion is one level (only the component's
own BOM lines are read). -/
theorem C2_material_requirement_calculation (p : Planning)
    (h : p.component_line_ids ≠ []) :
    (action_material_planning p =
      .ok { p with
        plan_state := .material_planned
        material_requirement_ids :=
          (p.component_line_ids.map (fun comp =>
            match comp.bom with
            | some bom =>
                bom.bom_line_ids.map (fun bl =>
                  { component_id := comp.component.pid
                    material_id := bl.product.pid
                    required_qty := bl.product_qty * comp.quantity
                    available_qty :=
                      bl.product.qty_available - bl.product.outgoing_qty
                    shortage_qty := max 0 (bl.product_qty * comp.quantity -
                      (bl.product.qty_available - bl.product.outgoing_qty)) })
            | none =>
                [{ component_id := comp.component.pid
                   material_id := comp.component.pid
                   required_qty := comp.quantity
                   available_qty :=
                     comp.component.qty_available - comp.component.outgoing_qty
                   shortage_qty := max 0 (comp.quantity -
                     (comp.component.qty_available -
                       comp.component.outgoing_qty)) }])).flatten }) ∧
    (∀ old, action_material_planning { p with material_requirement_ids := old }
        = action_material_planning p) := by
  have hne : p.component_line_ids.isEmpty = false := by
    cases hx : p.component_line_ids with
    | nil => exact absurd hx h
    | cons a l => simp [List.isEmpty]
  constructor
  · unfold action_material_planning
    rw [hne]
    simp only [Bool.false_eq_true, if_false, Except.ok.injEq]
    rw [foldl_append_requirements]
    simp only [List.nil_append]
    have hfun : requirement_lines = fun comp : PlanComponent =>
        match comp.bom with
        | some bom =>
            bom.bom_line_ids.map (fun bl =>
              { component_id := comp.component.pid
                material_id := bl.product.pid
                required_qty := bl.product_qty * comp.quantity
                available_qty :=
                  bl.product.qty_available - bl.product.outgoing_qty
                shortage_qty := max 0 (bl.product_qty * comp.quantity -
                  (bl.product.qty_available - bl.product.outgoing_qty)) })
        | none =>
            [{ component_id := comp.component.pid
               material_id := comp.component.pid
               required_qty := comp.quantity
               available_qty :=
                 comp.component.qty_available - comp.component.outgoing_qty
               shortage_qty := max 0 (comp.quantity -
                 (comp.component.qty_available -
                   comp.component.outgoing_qty)) }] := by
      funext c
      cases hb : c.bom <;> simp only [requirement_lines, hb]
    rw [hfun]
  · intro old
    simp [action_material_planning]

/-- Witness for C2 at a one-component planning without a BOM, carrying a
stale requirement line that the action replaces. -/
theorem C2_witness :
    action_material_planning
        ⟨[⟨⟨1, 10, 2⟩, 5, none⟩], [⟨9, 9, 9, 9, 9⟩], .components_loaded⟩
      = .ok ⟨[⟨⟨1, 10, 2⟩, 5, none⟩], [⟨1, 1, 5, 8, 0⟩], .material_planned⟩ := by
  rw [(C2_material_requirement_calculation
    ⟨[⟨⟨1, 10, 2⟩, 5, none⟩], [⟨9, 9, 9, 9, 9⟩], .components_loaded⟩
    (by decide)).1]
  norm_num [List.flatten, max_def]

/-! ## Theorems about the work-order creation wizard -/

/-- When every component guard passes, the loop creates exactly one
order per BOM-linked component, appended to what was created so far. -/
theorem createComponentOrders_ok (planningName : String) (qs : ℚ)
    (comps : List WizComponent) :
    ∀ db created : List MrpProduction,
      componentGuardsOk planningName qs comps db = true →
      createComponentOrders planningName qs comps db created =
        .ok (created ++ expectedComponentOrders planningName qs comps) := by
  induction comps with
  | nil =>
    intro db created _
    simp [createComponentOrders, expectedComponentOrders]
  | cons c rest ih =>
    intro db created hg
    cases hb : c.bom_id with
    | none =>
      rw [componentGuardsOk, hb] at hg
      rw [createComponentOrders, hb]
      rw [ih _ _ hg]
      simp [expectedComponentOrders, hb]
    | some b =>
      rw [componentGuardsOk, hb] at hg
      rw [createComponentOrders, hb]
      simp only at hg ⊢
      by_cases hc : existingQtySum db planningName c.component_id
          + c.quantity * qs > c.quantity
      · rw [if_pos hc] at hg
        exact absurd hg (by simp)
      · rw [if_neg hc] at hg ⊢
        rw [ih _ _ hg]
        simp [expectedComponentOrders, hb]

/-- When some component guard fails, the loop raises. -/
theorem createComponentOrders_error (planningName : String) (qs : ℚ)
    (comps : List WizComponent) :
    ∀ db created : List MrpProduction,
      componentGuardsOk planningName qs comps db = false →
      ∃ msg, createComponentOrders planningName qs comps db created =
        .error msg := by
  induction comps with
  | nil =>
    intro db created hg
    rw [componentGuardsOk] at hg
    exact absurd hg (by simp)
  | cons c rest ih =>
    intro db created hg
    cases hb : c.bom_id with
    | none =>
      rw [componentGuardsOk, hb] at hg
      rw [createComponentOrders, hb]
      exact ih _ _ hg
    | some b =>
      rw [componentGuardsOk, hb] at hg
      rw [createComponentOrders, hb]
      simp only at hg ⊢
      by_cases hc : existingQtySum db planningName c.component_id
          + c.quantity * qs > c.quantity
      · rw [if_pos hc]
        exact ⟨_, rfl⟩
      · rw [if_neg hc] at hg ⊢
        exact ih _ _ hg

/-- C3: for a requested quantity within the allowed maximum and component
orders enabled, whenever some BOM-linked component's already-created
quantity (orders whose origin contains the planning name) plus its new
scaled quantity would exceed its planned quantity, `action_create_orders`
raises a blocking user error and creates nothing; when no component
exceeds its limit, it creates exactly one production order for the main
product with the requested quantity plus one per BOM-linked component
scaled by requested/planned ratio. -/
theorem C3_work_order_creation_guard (existing : List MrpProduction)
    (planning : WizPlanning) (product_id : Nat) (q maxq : ℚ)
    (hq : q ≤ maxq) :
    (componentGuardsOk planning.name (wizardScale planning q)
        planning.component_line_ids
        (existing ++ [mainOrder planning product_id q]) = true →
      action_create_orders existing planning product_id q maxq true =
        .ok (mainOrder planning product_id q ::
          expectedComponentOrders planning.name (wizardScale planning q)
            planning.component_line_ids)) ∧
    (componentGuardsOk planning.name (wizardScale planning q)
        planning.component_line_ids
        (existing ++ [mainOrder planning product_id q]) = false →
      ∃ msg, action_create_orders existing planning product_id q maxq true
        = .error msg) := by
  have hnq : ¬ q > maxq := not_lt.mpr hq
  constructor
  · intro hg
    unfold action_create_orders
    rw [if_neg hnq]
    simp only [if_true]
    rw [createComponentOrders_ok _ _ _ _ _ hg]
    simp
  · intro hg
    obtain ⟨msg, hmsg⟩ :=
      createComponentOrders_error planning.name (wizardScale planning q)
        planning.component_line_ids
        (existing ++ [mainOrder planning product_id q])
        [mainOrder planning product_id q] hg
    refine ⟨msg, ?_⟩
    unfold action_create_orders
    rw [if_neg hnq]
    simp only [if_true]
    rw [hmsg]

/-- Witness for C3: a planning of 10 units with one BOM-linked component
planned at 20; producing 4 units creates the main order and a component
order of 8 = 20 × (4/10). -/
theorem C3_witness :
    action_create_orders [] ⟨"P1", 10, [⟨5, "C", 1, 20, some 3⟩]⟩ 99 4 10 true
      = .ok [⟨"P1", 99, 4, none, .draft⟩, ⟨"P1 - C", 5, 8, some 3, .draft⟩] := by
  have h := (C3_work_order_creation_guard []
    ⟨"P1", 10, [⟨5, "C", 1, 20, some 3⟩]⟩ 99 4 10 (by norm_num)).1 ?hg
  case hg =>
    norm_num [componentGuardsOk, existingQtySum, mkCompOrder, mainOrder,
      wizardScale, strContainsSub, listHasSub, listStartsWith]
  rw [h]
  norm_num [expectedComponentOrders, mkCompOrder, mainOrder, wizardScale,
    List.filterMap_cons, MrpProduction.mk.injEq]
  rfl

/-! ## Theorems about automatic material issuing -/

/-- C8 counterexample: a draft production order whose confirmation
raises, but which has one pending raw move.  `_auto_issue_materials`
returns `(0, 0)`, so the returned total is not the number of pending
raw-material moves in this case. -/
theorem C8_counterexample :
    auto_issue_materials
        ⟨.draft, none, [⟨5, 10, .confirmed, [], none, none, none, false⟩]⟩
      = (0, 0) ∧
    (([⟨5, 10, .confirmed, [], none, none, none, false⟩] :
        List StockMove).filter pendingMove).length = 1 := by
  exact ⟨rfl, rfl⟩

/-- C8 (amended): `_auto_issue_materials` is total for every outcome of
the fallible platform calls (each is caught and logged, never re-raised)
and always returns `(issued, total)` with `issued ≤ total`; it returns
`(0, 0)` when a draft order cannot be confirmed, and in every other case
`total` is the number of pending raw-material moves of the production
order. -/
theorem C8_auto_issue_bounds (p : ProductionOrder) :
    (auto_issue_materials p).1 ≤ (auto_issue_materials p).2 ∧
    (p.prod_state = .draft ∧ p.confirm_result = none →
      auto_issue_materials p = (0, 0)) ∧
    (¬(p.prod_state = .draft ∧ p.confirm_result = none) →
      (auto_issue_materials p).2 = (p.moves.filter pendingMove).length) := by
  unfold auto_issue_materials
  by_cases h : p.prod_state = .draft ∧ p.confirm_result = none
  · simp [h]
  · rw [if_neg h]
    refine ⟨?_, fun hc => absurd hc h, fun _ => ?_⟩
    · by_cases h0 : (p.moves.filter pendingMove).length = 0
      · simp [h0]
      · simp only [h0, if_false]
        exact List.length_filter_le _ _
    · by_cases h0 : (p.moves.filter pendingMove).length = 0
      · simp [h0]
      · simp only [h0, if_false]

/-- Witness for C8 (amended): a confirmable order with one pending and
one cancelled raw move reports total 1, and a failing draft confirm
reports `(0, 0)`. -/
theorem C8_witness :
    (auto_issue_materials ⟨.confirmed, some .confirmed,
        [⟨5, 10, .assigned, [⟨true, 5, 0, 0⟩], none, none, none, false⟩,
         ⟨3, 1, .cancel, [], none, none, none, false⟩]⟩).2
      = (([⟨5, 10, .assigned, [⟨true, 5, 0, 0⟩], none, none, none, false⟩,
           ⟨3, 1, .cancel, [], none, none, none, false⟩] :
          List StockMove).filter pendingMove).length ∧
    auto_issue_materials ⟨.draft, none, []⟩ = (0, 0) :=
  ⟨(C8_auto_issue_bounds _).2.2 (by simp),
   (C8_auto_issue_bounds _).2.1 ⟨rfl, rfl⟩⟩

/-! ## Theorems about the Excel import: row matching (`_find_product_line`) -/

/-- Index of the first element satisfying a predicate, counting from
`n`. -/
def firstIdxAux {α : Type} (f : α → Bool) : List α → Nat → Option Nat
  | [], _ => none
  | a :: l, n => if f a then some n else firstIdxAux f l (n + 1)

/-- Index of the first element of a list satisfying a predicate. -/
def firstIdx {α : Type} (f : α → Bool) (l : List α) : Option Nat :=
  firstIdxAux f l 0

/-- Finding in the enumerated list and keeping the index yields the
first matching index. -/
theorem enumFrom_find_head {α : Type} (f : α → Bool) :
    ∀ (l : List α) (n : Nat),
      ((List.enumFrom n l).find? (fun p => f p.2)).map Prod.fst
        = firstIdxAux f l n := by
  intro l
  induction l with
  | nil => intro n; rfl
  | cons a t ih =>
    intro n
    by_cases hf : f a
    · simp [List.enumFrom, firstIdxAux, hf]
    · simp [List.enumFrom, firstIdxAux, hf, ih]

/-- The head of a filtered list is the first match. -/
theorem filter_head_eq_find {α : Type} (f : α → Bool) :
    ∀ l : List α, (l.filter f).head? = l.find? f := by
  intro l
  induction l with
  | nil => rfl
  | cons a t ih =>
    by_cases hf : f a <;>
      simp [List.filter_cons, hf, List.find?_cons, ih]

/-- Filtering the enumerated list and taking the head's index yields the
first matching index. -/
theorem enum_filter_head {α : Type} (f : α → Bool) (l : List α) :
    ((l.enum.filter (fun p => f p.2)).head?).map Prod.fst = firstIdx f l := by
  simpa [List.enum, firstIdx, filter_head_eq_find] using
    enumFrom_find_head f l 0

/-- Rewriting the wizard's `head?`-match through `Option.map Prod.fst`. -/
theorem match_head_map (o : Option (Nat × ProductLineRec)) (k : Option Nat) :
    (match o with | some p => some p.1 | none => k)
      = (match o.map Prod.fst with | some i => some i | none => k) := by
  cases o <;> rfl

/-- C4 counterexample: a data row whose first cell is a blank-only
string.  It is a data row (truthy first cell, not a TOTAL marker), it
matches no product line, yet the import skips it silently — no error
line is recorded for it. -/
theorem C4_counterexample :
    (XCell.s " ").truthy = true ∧
    stopRow [XCell.s " "] = false ∧
    find_product_line [⟨1, some "A1", "Widget", 1, 1, 10, 5, 9⟩] "" "" = none ∧
    action_import_prices [[XCell.s "Product Code"], [XCell.s " "]]
        [⟨1, some "A1", "Widget", 1, 1, 10, 5, 9⟩]
      = .ok ⟨[⟨1, some "A1", "Widget", 1, 1, 10, 5, 9⟩], 0, [], 1⟩ := by
  exact ⟨rfl, rfl, rfl, rfl⟩

/-- C4 (amended): a row is matched by trying, in order, exact stripped
code, exact stripped name, then case-insensitive name — the first
strategy that matches wins and the first matching line is used; a row
with a nonempty stripped code or name that matches no product line is
left unwritten and recorded as an error line, while a row whose code and
name both strip to empty is skipped without an error record. -/
theorem C4_row_matching (ls : List ProductLineRec) (code nm : String) :
    (find_product_line ls code nm =
      match (if code.isEmpty then none else firstIdx (codeFilter code) ls) with
      | some i => some i
      | none =>
        match (if nm.isEmpty then none else firstIdx (nameFilter nm) ls) with
        | some i => some i
        | none =>
          if nm.isEmpty then none else firstIdx (nameFilterCI nm) ls) ∧
    (∀ (r : List XCell) rest idx ls0 upd errs skip,
      stopRow r = false →
      ((rowCode r).isEmpty && (rowName r).isEmpty) = false →
      find_product_line ls0 (rowCode r) (rowName r) = none →
      rowLoop (r :: rest) idx ls0 upd errs skip =
        rowLoop rest (idx + 1) ls0 upd
          (errs ++ [(idx, rowCode r, rowName r)]) skip) ∧
    (∀ (r : List XCell) rest idx ls0 upd errs skip,
      stopRow r = false →
      ((rowCode r).isEmpty && (rowName r).isEmpty) = true →
      rowLoop (r :: rest) idx ls0 upd errs skip =
        rowLoop rest (idx + 1) ls0 upd errs (skip + 1)) := by
  refine ⟨?_, ?_, ?_⟩
  · unfold find_product_line
    by_cases hc : code.isEmpty <;> by_cases hn : nm.isEmpty <;>
      simp only [hc, hn, Bool.and_self, Bool.and_true, Bool.and_false,
        Bool.true_and, Bool.false_and, Bool.not_true, Bool.not_false,
        if_true, if_false, Bool.false_eq_true, List.filter_nil,
        List.head?_nil, Option.map_none, match_head_map, enum_filter_head] <;>
      (try cases firstIdx (codeFilter code) ls) <;>
      (try cases firstIdx (nameFilter nm) ls) <;>
      (try cases firstIdx (nameFilterCI nm) ls) <;> rfl
  · intro r rest idx ls0 upd errs skip hstop hcn hfind
    have ha : (r.isEmpty || !(rowGet r 0).truthy) = false := by
      unfold stopRow at hstop
      exact (Bool.or_eq_false_iff.mp hstop).1
    have hb : (pyUpper (pyStrip (rowGet r 0).toStr) == "TOTAL") = false := by
      unfold stopRow at hstop
      exact (Bool.or_eq_false_iff.mp hstop).2
    simp only [rowLoop, ha, hb, Bool.false_eq_true, if_false, hcn, hfind]
  · intro r rest idx ls0 upd errs skip hstop hcn
    have ha : (r.isEmpty || !(rowGet r 0).truthy) = false := by
      unfold stopRow at hstop
      exact (Bool.or_eq_false_iff.mp hstop).1
    have hb : (pyUpper (pyStrip (rowGet r 0).toStr) == "TOTAL") = false := by
      unfold stopRow at hstop
      exact (Bool.or_eq_false_iff.mp hstop).2
    simp only [rowLoop, ha, hb, Bool.false_eq_true, if_false, hcn, if_true]

/-- Witness for C4: code match beats name match; a name-only row falls
back to the case-insensitive strategy; an unmatched row is recorded as
an error. -/
theorem C4_witness :
    find_product_line
        [⟨1, some "A1", "Widget", 1, 1, 10, 5, 9⟩,
         ⟨2, some "B2", "widget", 1, 1, 20, 6, 9⟩] "B2" "Widget" = some 1 ∧
    find_product_line
        [⟨1, some "A1", "Widget", 1, 1, 10, 5, 9⟩] "ZZ" "wIDGET" = some 0 ∧
    rowLoop [[XCell.s "QQ"]] 5 [⟨1, some "A1", "Widget", 1, 1, 10, 5, 9⟩]
        0 [] 0 =
      rowLoop [] 6 [⟨1, some "A1", "Widget", 1, 1, 10, 5, 9⟩]
        0 [(5, "QQ", "")] 0 := by
  refine ⟨?_, ?_, ?_⟩
  · rw [(C4_row_matching
      [⟨1, some "A1", "Widget", 1, 1, 10, 5, 9⟩,
       ⟨2, some "B2", "widget", 1, 1, 20, 6, 9⟩] "B2" "Widget").1]
    rfl
  · rw [(C4_row_matching
      [⟨1, some "A1", "Widget", 1, 1, 10, 5, 9⟩] "ZZ" "wIDGET").1]
    rfl
  · have h := (C4_row_matching [] "" "").2.1 [XCell.s "QQ"] [] 5
      [⟨1, some "A1", "Widget", 1, 1, 10, 5, 9⟩] 0 [] 0 rfl rfl rfl
    simpa [rowCode, rowName, pyStrip, trimChars, rowGet, XCell.toStr] using h

/-! ## Theorems about the Excel import: header scan and row loop -/

/-- Characterisation of the header scan `findHeaderAux`: a hit is within
the fuel window, its row carries the label, and no earlier row does. -/
theorem findHeaderAux_spec :
    ∀ (l : List (List XCell)) (fuel idx h : Nat),
      findHeaderAux l fuel idx = some h →
      idx ≤ h ∧ h < idx + fuel ∧
      (∃ r, l.get? (h - idx) = some r ∧
        (!r.isEmpty && headerLabel r == "Product Code") = true) ∧
      (∀ j, j < h - idx → ∀ r, l.get? j = some r →
        (!r.isEmpty && headerLabel r == "Product Code") = false) := by
  intro l
  induction l with
  | nil =>
    intro fuel idx h hf
    cases fuel <;> simp [findHeaderAux] at hf
  | cons r rest ih =>
    intro fuel idx h hf
    cases fuel with
    | zero => simp [findHeaderAux] at hf
    | succ f =>
      simp only [findHeaderAux] at hf
      by_cases hc : (!r.isEmpty && headerLabel r == "Product Code") = true
      · rw [if_pos hc] at hf
        obtain rfl : idx = h := Option.some.inj hf
        refine ⟨le_refl _, by omega, ⟨r, by simp, hc⟩, ?_⟩
        intro j hj
        rw [Nat.sub_self] at hj
        exact absurd hj (Nat.not_lt_zero j)
      · rw [if_neg hc] at hf
        obtain ⟨h1, h2, ⟨r', hr', hcr⟩, hprev⟩ := ih f (idx + 1) h hf
        refine ⟨by omega, by omega, ⟨r', ?_, hcr⟩, ?_⟩
        · have hsub : h - idx = (h - (idx + 1)) + 1 := by omega
          rw [hsub]
          simpa using hr'
        · intro j hj r0 hr0
          cases j with
          | zero =>
            simp only [List.get?] at hr0
            obtain rfl : r = r0 := Option.some.inj hr0
            exact Bool.eq_false_iff.mpr hc
          | succ j' =>
            have hj' : j' < h - (idx + 1) := by omega
            apply hprev j' hj'
            simpa using hr0

/-- The row loop never looks past the first stop row: it computes the
same result on the `takeWhile` prefix of non-stop rows. -/
theorem rowLoop_stop_truncation :
    ∀ (rows : List (List XCell)) (idx : Nat) (ls : List ProductLineRec)
      (upd : Nat) (errs : List (Nat × String × String)) (skip : Nat),
      rowLoop rows idx ls upd errs skip =
        rowLoop (rows.takeWhile (fun r => !stopRow r)) idx ls upd errs skip := by
  intro rows
  induction rows with
  | nil => intro idx ls upd errs skip; rfl
  | cons r rest ih =>
    intro idx ls upd errs skip
    by_cases hstop : stopRow r = true
    · have htw : (r :: rest).takeWhile (fun r => !stopRow r) = [] := by
        simp [List.takeWhile_cons, hstop]
      rw [htw]
      by_cases ha : (r.isEmpty || !(rowGet r 0).truthy) = true
      · simp only [rowLoop, ha, if_true]
      · have ha' : (r.isEmpty || !(rowGet r 0).truthy) = false :=
          Bool.eq_false_iff.mpr ha
        have hb : (pyUpper (pyStrip (rowGet r 0).toStr) == "TOTAL") = true := by
          unfold stopRow at hstop
          rcases Bool.or_eq_true_iff.mp hstop with h | h
          · exact absurd h ha
          · exact h
        simp only [rowLoop, ha', hb, Bool.false_eq_true, if_false, if_true]
    · have hsf : stopRow r = false := Bool.eq_false_iff.mpr hstop
      have htw : (r :: rest).takeWhile (fun r => !stopRow r)
          = r :: rest.takeWhile (fun r => !stopRow r) := by
        simp [List.takeWhile_cons, hsf]
      rw [htw]
      unfold stopRow at hsf
      have ha : (r.isEmpty || !(rowGet r 0).truthy) = false :=
        (Bool.or_eq_false_iff.mp hsf).1
      have hb : (pyUpper (pyStrip (rowGet r 0).toStr) == "TOTAL") = false :=
        (Bool.or_eq_false_iff.mp hsf).2
      simp only [rowLoop, ha, hb, Bool.false_eq_true, if_false]
      split
      · exact ih ..
      · split
        · exact ih ..
        · split
          · exact ih ..
          · exact ih ..

/-- C5 counterexample: a data row whose first cell is the lower-case
string `total`.  It is truthy and differs from the literal `TOTAL`, the
following row parses (column P = 42) and matches a product line, yet
the run stops at the `total` row and updates nothing — the stop test is
case-insensitive, not equality with `TOTAL`. -/
theorem C5_counterexample :
    (XCell.s "total").truthy = true ∧
    pyStrip (XCell.s "total").toStr ≠ "TOTAL" ∧
    find_product_line [⟨1, some "A1", "Widget", 1, 1, 10, 5, 9⟩]
      "A1" "Widget" = some 0 ∧
    costParse ([XCell.s "A1", XCell.s "Widget"]
      ++ List.replicate 13 XCell.blank ++ [XCell.n 42, XCell.n 99]) = some 42 ∧
    execute_import
        [[XCell.s "Product Code"], [XCell.s "total"],
         [XCell.s "A1", XCell.s "Widget"]
           ++ List.replicate 13 XCell.blank ++ [XCell.n 42, XCell.n 99]]
        2 [⟨1, some "A1", "Widget", 1, 1, 10, 5, 9⟩]
      = ⟨[⟨1, some "A1", "Widget", 1, 1, 10, 5, 9⟩], 0, [], 0⟩ := by
  refine ⟨rfl, by decide, rfl, rfl, rfl⟩

/-- C5 (amended): the import locates the header as the first of the
first 30 rows whose stripped column-A label is `Product Code`, raising a
blocking error when there is none; it then processes the rows from the
next row on, stopping at the first row with a falsy first cell or a
first cell whose stripped, upper-cased value is `TOTAL`; a processed,
matched row is written with the cost price parsed from column P
(index 15) and the sale price parsed from column Q (index 16). -/
theorem C5_header_scan_and_row_loop (ws : List (List XCell))
    (ls : List ProductLineRec) :
    (findHeader ws = none →
      action_import_prices ws ls = .error "Could not find data header row!") ∧
    (∀ h, findHeader ws = some h →
      action_import_prices ws ls = .ok (execute_import ws (h + 1) ls) ∧
      1 ≤ h ∧ h ≤ 30 ∧
      (∃ r, ws.get? (h - 1) = some r ∧
        (!r.isEmpty && headerLabel r == "Product Code") = true) ∧
      (∀ j, j < h - 1 → ∀ r, ws.get? j = some r →
        (!r.isEmpty && headerLabel r == "Product Code") = false)) ∧
    (∀ ds, execute_import ws ds ls =
      rowLoop ((ws.drop (ds - 1)).takeWhile (fun r => !stopRow r))
        ds ls 0 [] 0) ∧
    (∀ (r : List XCell) rest idx ls0 upd errs skip i,
      stopRow r = false →
      ((rowCode r).isEmpty && (rowName r).isEmpty) = false →
      find_product_line ls0 (rowCode r) (rowName r) = some i →
      rowLoop (r :: rest) idx ls0 upd errs skip =
        if ((if decide (r.length > 15) && rowGet r 15 ≠ XCell.blank
              then (rowGet r 15).toFloat else none).isNone
            && (if decide (r.length > 16) && rowGet r 16 ≠ XCell.blank
              then (rowGet r 16).toFloat else none).isNone) = true then
          rowLoop rest (idx + 1) ls0 upd errs skip
        else
          rowLoop rest (idx + 1)
            (modifyIdx ls0 i (fun l => applyUpdate l
              (if decide (r.length > 15) && rowGet r 15 ≠ XCell.blank
                then (rowGet r 15).toFloat else none)
              (if decide (r.length > 16) && rowGet r 16 ≠ XCell.blank
                then (rowGet r 16).toFloat else none)))
            (upd + 1) errs skip) := by
  refine ⟨?_, ?_, ?_, ?_⟩
  · intro hn
    unfold action_import_prices
    rw [hn]
  · intro h hh
    obtain ⟨h1, h2, hwit, hprev⟩ := findHeaderAux_spec ws 30 1 h hh
    refine ⟨?_, h1, by omega, ?_, ?_⟩
    · unfold action_import_prices
      rw [hh]
    · simpa using hwit
    · simpa using hprev
  · intro ds
    unfold execute_import
    exact rowLoop_stop_truncation ..
  · intro r rest idx ls0 upd errs skip i hstop hcn hfind
    unfold stopRow at hstop
    have ha : (r.isEmpty || !(rowGet r 0).truthy) = false :=
      (Bool.or_eq_false_iff.mp hstop).1
    have hb : (pyUpper (pyStrip (rowGet r 0).toStr) == "TOTAL") = false :=
      (Bool.or_eq_false_iff.mp hstop).2
    simp only [rowLoop, ha, hb, Bool.false_eq_true, if_false, hcn, hfind]
    rfl

/-- Witness for C5: a sheet without the label raises; with the label in
row 1, the import runs from row 2 and stops at the `TOTAL` marker. -/
theorem C5_witness :
    action_import_prices [[XCell.s "junk"]] []
      = .error "Could not find data header row!" ∧
    action_import_prices [[XCell.s "Product Code"], [XCell.s "TOTAL"]] []
      = .ok (execute_import [[XCell.s "Product Code"], [XCell.s "TOTAL"]] 2 []) :=
  ⟨(C5_header_scan_and_row_loop [[XCell.s "junk"]] []).1 rfl,
   ((C5_header_scan_and_row_loop
      [[XCell.s "Product Code"], [XCell.s "TOTAL"]] []).2.1 1 rfl).1⟩

/-! ## Theorems about the Excel import: frame of the writes -/

/-- Agreement on every product-line field `_execute_import` never
writes: product, code, name, quantity, weight and sequence. -/
def sameFrame (a b : ProductLineRec) : Prop :=
  a.product_id = b.product_id ∧ a.default_code = b.default_code ∧
  a.product_name = b.product_name ∧ a.quantity = b.quantity ∧
  a.weight = b.weight ∧ a.sequence = b.sequence

theorem sameFrame_refl (a : ProductLineRec) : sameFrame a a :=
  ⟨rfl, rfl, rfl, rfl, rfl, rfl⟩

theorem sameFrame_trans {a b c : ProductLineRec}
    (h1 : sameFrame a b) (h2 : sameFrame b c) : sameFrame a c := by
  obtain ⟨x1, x2, x3, x4, x5, x6⟩ := h1
  obtain ⟨y1, y2, y3, y4, y5, y6⟩ := h2
  exact ⟨x1.trans y1, x2.trans y2, x3.trans y3, x4.trans y4,
    x5.trans y5, x6.trans y6⟩

theorem forall₂_sameFrame_refl :
    ∀ ls : List ProductLineRec, List.Forall₂ sameFrame ls ls
  | [] => List.Forall₂.nil
  | a :: l => List.Forall₂.cons (sameFrame_refl a) (forall₂_sameFrame_refl l)

theorem forall₂_sameFrame_trans :
    ∀ {xs ys zs : List ProductLineRec},
      List.Forall₂ sameFrame xs ys → List.Forall₂ sameFrame ys zs →
      List.Forall₂ sameFrame xs zs := by
  intro xs ys zs h1
  induction h1 generalizing zs with
  | nil =>
    intro h2
    cases h2
    exact .nil
  | cons hab htail ih =>
    intro h2
    cases h2 with
    | cons hbc htail2 => exact .cons (sameFrame_trans hab hbc) (ih htail2)

/-- `product_line.write` on the price keys keeps every other field. -/
theorem applyUpdate_frame (l : ProductLineRec) (c? s? : Option ℚ) :
    sameFrame l (applyUpdate l c? s?) :=
  ⟨rfl, rfl, rfl, rfl, rfl, rfl⟩

theorem modifyIdx_forall₂ (f : ProductLineRec → ProductLineRec)
    (hf : ∀ a, sameFrame a (f a)) :
    ∀ (ls : List ProductLineRec) (i : Nat),
      List.Forall₂ sameFrame ls (modifyIdx ls i f)
  | [], _ => .nil
  | a :: l, 0 => .cons (hf a) (forall₂_sameFrame_refl l)
  | a :: l, i + 1 => .cons (sameFrame_refl a) (modifyIdx_forall₂ f hf l i)

theorem modifyIdx_get?_ne {α : Type} (f : α → α) :
    ∀ (ls : List α) (j i : Nat), i ≠ j →
      (modifyIdx ls j f).get? i = ls.get? i
  | [], _, _, _ => rfl
  | _ :: _, 0, 0, h => absurd rfl h
  | _ :: _, 0, _ + 1, _ => rfl
  | _ :: _, _ + 1, 0, _ => rfl
  | _ :: l, j + 1, i + 1, h =>
      modifyIdx_get?_ne f l j i (fun he => h (by rw [he]))

theorem modifyIdx_get?_eq {α : Type} (f : α → α) :
    ∀ (ls : List α) (j : Nat),
      (modifyIdx ls j f).get? j = (ls.get? j).map f
  | [], _ => rfl
  | _ :: _, 0 => rfl
  | _ :: l, j + 1 => modifyIdx_get?_eq f l j

/-- `firstIdxAux` only looks at the predicate's value on each element. -/
theorem firstIdxAux_congr (f : ProductLineRec → Bool)
    (hf : ∀ a b, sameFrame a b → f a = f b) :
    ∀ {xs ys : List ProductLineRec}, List.Forall₂ sameFrame xs ys →
      ∀ n, firstIdxAux f xs n = firstIdxAux f ys n := by
  intro xs ys h
  induction h with
  | nil => intro n; rfl
  | cons hab htail ih =>
    intro n
    simp only [firstIdxAux]
    rw [hf _ _ hab]
    split
    · rfl
    · exact ih (n + 1)

theorem firstIdx_congr (f : ProductLineRec → Bool)
    (hf : ∀ a b, sameFrame a b → f a = f b)
    {xs ys : List ProductLineRec} (h : List.Forall₂ sameFrame xs ys) :
    firstIdx f xs = firstIdx f ys :=
  firstIdxAux_congr f hf h 0

/-- `_find_product_line` reads only the code and name of each line, so
frame-equal line lists match identically. -/
theorem find_product_line_congr {ls ls' : List ProductLineRec}
    (h : List.Forall₂ sameFrame ls ls') (code nm : String) :
    find_product_line ls code nm = find_product_line ls' code nm := by
  have hcode : ∀ a b, sameFrame a b → codeFilter code a = codeFilter code b := by
    intro a b hab
    unfold codeFilter
    rw [hab.2.1]
  have hname : ∀ a b, sameFrame a b → nameFilter nm a = nameFilter nm b := by
    intro a b hab
    unfold nameFilter
    rw [hab.2.2.1]
  have hnameCI : ∀ a b, sameFrame a b →
      nameFilterCI nm a = nameFilterCI nm b := by
    intro a b hab
    unfold nameFilterCI
    rw [hab.2.2.1]
  unfold find_product_line
  by_cases hc : code.isEmpty <;> by_cases hn : nm.isEmpty <;>
    simp only [hc, hn, Bool.and_self, Bool.and_true, Bool.and_false,
      Bool.true_and, Bool.false_and, Bool.not_true, Bool.not_false,
      if_true, if_false, Bool.false_eq_true, List.filter_nil,
      List.head?_nil, Option.map_none, match_head_map, enum_filter_head,
      firstIdx_congr _ hcode h, firstIdx_congr _ hname h,
      firstIdx_congr _ hnameCI h]

/-- Frame invariant of the row loop: every line keeps its identity
fields; a line matched by no processed row is entirely unchanged; the
cost (resp. sale) price of a line is unchanged unless some processed row
matching it parses column P (resp. Q). -/
theorem rowLoop_frame_inv :
    ∀ (rows : List (List XCell)) (idx : Nat) (ls : List ProductLineRec)
      (upd : Nat) (errs : List (Nat × String × String)) (skip : Nat),
      List.Forall₂ sameFrame ls (rowLoop rows idx ls upd errs skip).lines ∧
      (∀ i : Nat,
        (∀ r ∈ rows.takeWhile (fun r => !stopRow r),
          find_product_line ls (rowCode r) (rowName r) ≠ some i) →
        (rowLoop rows idx ls upd errs skip).lines.get? i = ls.get? i) ∧
      (∀ i : Nat,
        (∀ r ∈ rows.takeWhile (fun r => !stopRow r),
          find_product_line ls (rowCode r) (rowName r) = some i →
          costParse r = none) →
        ((rowLoop rows idx ls upd errs skip).lines.get? i).map
            (fun l => l.cost_price)
          = (ls.get? i).map (fun l => l.cost_price)) ∧
      (∀ i : Nat,
        (∀ r ∈ rows.takeWhile (fun r => !stopRow r),
          find_product_line ls (rowCode r) (rowName r) = some i →
          saleParse r = none) →
        ((rowLoop rows idx ls upd errs skip).lines.get? i).map
            (fun l => l.sale_price)
          = (ls.get? i).map (fun l => l.sale_price)) := by
  intro rows
  induction rows with
  | nil =>
    intro idx ls upd errs skip
    exact ⟨forall₂_sameFrame_refl ls, fun i _ => rfl, fun i _ => rfl,
      fun i _ => rfl⟩
  | cons r rest ih =>
    intro idx ls upd errs skip
    by_cases hstop : stopRow r = true
    · have heq : rowLoop (r :: rest) idx ls upd errs skip
          = ⟨ls, upd, errs, skip⟩ := by
        rw [rowLoop_stop_truncation]
        simp [List.takeWhile_cons, hstop, rowLoop]
      rw [heq]
      exact ⟨forall₂_sameFrame_refl ls, fun i _ => rfl, fun i _ => rfl,
        fun i _ => rfl⟩
    · have hsf : stopRow r = false := Bool.eq_false_iff.mpr hstop
      have htw : (r :: rest).takeWhile (fun r => !stopRow r)
          = r :: rest.takeWhile (fun r => !stopRow r) := by
        simp [List.takeWhile_cons, hsf]
      have ha : (r.isEmpty || !(rowGet r 0).truthy) = false := by
        unfold stopRow at hsf
        exact (Bool.or_eq_false_iff.mp hsf).1
      have hb : (pyUpper (pyStrip (rowGet r 0).toStr) == "TOTAL") = false := by
        unfold stopRow at hsf
        exact (Bool.or_eq_false_iff.mp hsf).2
      rw [htw]
      simp only [rowLoop, ha, hb, Bool.false_eq_true, if_false]
      by_cases hcn : ((rowCode r).isEmpty && (rowName r).isEmpty) = true
      · simp only [hcn, if_true]
        obtain ⟨f2, huni, hcost, hsale⟩ := ih (idx + 1) ls upd errs (skip + 1)
        refine ⟨f2, ?_, ?_, ?_⟩
        · intro i hi
          exact huni i (fun r' hr' => hi r' (List.mem_cons_of_mem _ hr'))
        · intro i hi
          exact hcost i (fun r' hr' => hi r' (List.mem_cons_of_mem _ hr'))
        · intro i hi
          exact hsale i (fun r' hr' => hi r' (List.mem_cons_of_mem _ hr'))
      · simp only [hcn, Bool.false_eq_true, if_false]
        cases hfind : find_product_line ls (rowCode r) (rowName r) with
        | none =>
          simp only [hfind]
          obtain ⟨f2, huni, hcost, hsale⟩ := ih (idx + 1) ls upd
            (errs ++ [(idx, rowCode r, rowName r)]) skip
          refine ⟨f2, ?_, ?_, ?_⟩
          · intro i hi
            exact huni i (fun r' hr' => hi r' (List.mem_cons_of_mem _ hr'))
          · intro i hi
            exact hcost i (fun r' hr' => hi r' (List.mem_cons_of_mem _ hr'))
          · intro i hi
            exact hsale i (fun r' hr' => hi r' (List.mem_cons_of_mem _ hr'))
        | some j =>
          simp only [hfind]
          by_cases hns : ((costParse r).isNone && (saleParse r).isNone) = true
          · simp only [hns, if_true]
            obtain ⟨f2, huni, hcost, hsale⟩ := ih (idx + 1) ls upd errs skip
            refine ⟨f2, ?_, ?_, ?_⟩
            · intro i hi
              exact huni i (fun r' hr' => hi r' (List.mem_cons_of_mem _ hr'))
            · intro i hi
              exact hcost i (fun r' hr' => hi r' (List.mem_cons_of_mem _ hr'))
            · intro i hi
              exact hsale i (fun r' hr' => hi r' (List.mem_cons_of_mem _ hr'))
          · simp only [hns, Bool.false_eq_true, if_false]
            have hf2' : List.Forall₂ sameFrame ls
                (modifyIdx ls j (fun l =>
                  applyUpdate l (costParse r) (saleParse r))) :=
              modifyIdx_forall₂ _ (fun a => applyUpdate_frame a _ _) ls j
            obtain ⟨f2, huni, hcost, hsale⟩ := ih (idx + 1)
              (modifyIdx ls j (fun l =>
                applyUpdate l (costParse r) (saleParse r)))
              (upd + 1) errs skip
            refine ⟨forall₂_sameFrame_trans hf2' f2, ?_, ?_, ?_⟩
            · intro i hi
              have hji : i ≠ j := by
                intro he
                exact hi r (List.mem_cons_self _ _) (by rw [hfind, he])
              have hloop := huni i (fun r' hr' => by
                rw [← find_product_line_congr hf2' (rowCode r') (rowName r')]
                exact hi r' (List.mem_cons_of_mem _ hr'))
              rw [hloop, modifyIdx_get?_ne _ ls j i hji]
            · intro i hi
              have hloop := hcost i (fun r' hr' hf' => by
                apply hi r' (List.mem_cons_of_mem _ hr')
                rw [find_product_line_congr hf2' (rowCode r') (rowName r')]
                exact hf')
              rw [hloop]
              by_cases hij : i = j
              · subst hij
                rw [modifyIdx_get?_eq]
                have hcr : costParse r = none :=
                  hi r (List.mem_cons_self _ _) hfind
                cases hget : ls.get? i <;>
                  simp [applyUpdate, hcr]
              · rw [modifyIdx_get?_ne _ ls j i hij]
            · intro i hi
              have hloop := hsale i (fun r' hr' hf' => by
                apply hi r' (List.mem_cons_of_mem _ hr')
                rw [find_product_line_congr hf2' (rowCode r') (rowName r')]
                exact hf')
              rw [hloop]
              by_cases hij : i = j
              · subst hij
                rw [modifyIdx_get?_eq]
                have hsr : saleParse r = none :=
                  hi r (List.mem_cons_self _ _) hfind
                cases hget : ls.get? i <;>
                  simp [applyUpdate, hsr]
              · rw [modifyIdx_get?_ne _ ls j i hij]

/-- C10: the import writes only `cost_price` and `sale_price` of matched
project product lines — line count and every other field (product, code,
name, quantity, weight, sequence) are preserved; a line matched by no
processed row is entirely unchanged; and the cost price (resp. sale
price) of a line is written only when some processed row matching it
parses column P (resp. column Q) as a number. -/
theorem C10_import_writes_only_prices (ws : List (List XCell)) (ds : Nat)
    (ls : List ProductLineRec) :
    (execute_import ws ds ls).lines.length = ls.length ∧
    List.Forall₂ sameFrame ls (execute_import ws ds ls).lines ∧
    (∀ i : Nat,
      (∀ r ∈ (ws.drop (ds - 1)).takeWhile (fun r => !stopRow r),
        find_product_line ls (rowCode r) (rowName r) ≠ some i) →
      (execute_import ws ds ls).lines.get? i = ls.get? i) ∧
    (∀ i : Nat,
      (∀ r ∈ (ws.drop (ds - 1)).takeWhile (fun r => !stopRow r),
        find_product_line ls (rowCode r) (rowName r) = some i →
        costParse r = none) →
      ((execute_import ws ds ls).lines.get? i).map (fun l => l.cost_price)
        = (ls.get? i).map (fun l => l.cost_price)) ∧
    (∀ i : Nat,
      (∀ r ∈ (ws.drop (ds - 1)).takeWhile (fun r => !stopRow r),
        find_product_line ls (rowCode r) (rowName r) = some i →
        saleParse r = none) →
      ((execute_import ws ds ls).lines.get? i).map (fun l => l.sale_price)
        = (ls.get? i).map (fun l => l.sale_price)) := by
  obtain ⟨f2, huni, hcost, hsale⟩ :=
    rowLoop_frame_inv (ws.drop (ds - 1)) ds ls 0 [] 0
  exact ⟨(List.Forall₂.length_eq f2).symm, f2, huni, hcost, hsale⟩

/-- Witness for C10 at a concrete import: the matched line's prices are
written, the unmatched line is untouched, and a non-parsing sale column
leaves the sale price alone. -/
theorem C10_witness :
    (execute_import
        [[XCell.s "A1"] ++ List.replicate 14 XCell.blank
          ++ [XCell.n 42, XCell.s "oops"]] 1
        [⟨1, some "A1", "Widget", 1, 1, 10, 5, 9⟩,
         ⟨2, some "B2", "Gadget", 1, 1, 20, 6, 9⟩]).lines.get? 1
      = some ⟨2, some "B2", "Gadget", 1, 1, 20, 6, 9⟩ ∧
    ((execute_import
        [[XCell.s "A1"] ++ List.replicate 14 XCell.blank
          ++ [XCell.n 42, XCell.s "oops"]] 1
        [⟨1, some "A1", "Widget", 1, 1, 10, 5, 9⟩,
         ⟨2, some "B2", "Gadget", 1, 1, 20, 6, 9⟩]).lines.get? 0).map
        (fun l => l.sale_price) = some 9 := by
  constructor
  · exact (C10_import_writes_only_prices _ 1 _).2.2.1 1 (by decide)
  · exact ((C10_import_writes_only_prices _ 1 _).2.2.2.2 0 (by decide)).trans rfl

end ProjectT57
